import Mathlib

/-!
Verification development for the gemini-cli-rs repository.

The definitions below are shallow embeddings of the Rust source:

* `src/auth.rs` — OAuth token model (`OAuthToken`, `is_valid_for`,
  `expires_at`), the refresh orchestration (`refresh_step`,
  `build_refreshed_token`), the device-flow poll loop error dispatch
  (`handleTokenError`) and loop (`pollLoopRun`), and token persistence
  (`load_token`).
* `src/provider/google.rs` — the incremental SSE parser (`SseParser`,
  `SseParser.push`), text extraction from streaming responses
  (`extract_text`), and the per-event handling of the streaming loop
  (`handleSseEvent`).

Machine integers (`u64`) are modelled as `Nat` with explicit saturation
where the source uses `saturating_add`.  Rust `String`s that only ever
hold text are modelled as `List Nat` of Unicode code points (for the
byte-level SSE parser) or as Lean `String` (for the JSON envelope layer).
External effects (the HTTP server, the filesystem, `serde_json`) are
passed in as explicit parameters or oracles, so every function here is
computable and the control flow of the source is preserved exactly.
-/

/-- Rust `u64::MAX`. -/
def U64MAX : Nat := 2 ^ 64 - 1

/-- Rust `u64::saturating_add` on the `Nat` model. -/
def satAdd (a b : Nat) : Nat := min (a + b) U64MAX

/-- Structure `OAuthToken` from `src/auth.rs`.  `obtained_at` is seconds since the
UNIX epoch, `expires_in` a lifetime in seconds; both are `u64` in the
source. -/
structure OAuthToken where
  access_token : String
  token_type : String
  scope : Option String
  refresh_token : Option String
  obtained_at : Nat
  expires_in : Option Nat
  deriving DecidableEq, Repr

/-- Method `OAuthToken::expires_at`: `self.expires_in.map(|s| self.obtained_at.saturating_add(s))`. -/
def OAuthToken.expiresAt (t : OAuthToken) : Option Nat :=
  t.expires_in.map (fun s => satAdd t.obtained_at s)

/-- Method `OAuthToken::is_valid_for(skew)`: a token with no expiry is always
valid; otherwise valid iff `now.saturating_add(skew) < exp`.  The wall
clock `now` (the source's `now_secs()`) is an explicit argument. -/
def OAuthToken.isValidFor (t : OAuthToken) (skew : Nat) (now : Nat) : Bool :=
  match t.expiresAt with
  | none => true
  | some exp => satAdd now skew < exp

/-- Structure `TokenSuccessResponse` from `src/auth.rs` (the parsed JSON body of a
successful token-endpoint response). -/
structure TokenSuccessResponse where
  access_token : String
  token_type : String
  scope : Option String
  expires_in : Option Nat
  refresh_token : Option String
  deriving DecidableEq, Repr

/-- Structure `TokenErrorResponse` from `src/auth.rs`. -/
structure TokenErrorResponse where
  error : String
  error_description : Option String
  deriving DecidableEq, Repr

/-- The decision `refresh_if_needed` takes before any network traffic
(`src/auth.rs` lines 218–224): return the token unchanged, fail because
no refresh token is available, or proceed to the network refresh
exchange with the stored refresh token. -/
inductive RefreshStep where
  | returnUnchanged (t : OAuthToken)
  | failRefreshUnavailable
  | networkRefresh (rt : String)
  deriving DecidableEq, Repr

/-- The branch structure of `refresh_if_needed` before the POST:
if `token.is_valid_for(Duration::from_secs(30))` return it unchanged;
else if `token.refresh_token` is `None` fail; else do the exchange. -/
def refresh_step (t : OAuthToken) (now : Nat) : RefreshStep :=
  if t.isValidFor 30 now then .returnUnchanged t
  else
    match t.refresh_token with
    | none => .failRefreshUnavailable
    | some rt => .networkRefresh rt

/-- The token built by `refresh_if_needed` on a successful refresh
exchange (`src/auth.rs` lines 251–259).  Note the source sets
`refresh_token: token.refresh_token` — it always keeps the prior
token's refresh token and never reads `ok.refresh_token`. -/
def build_refreshed_token (t : OAuthToken) (ok : TokenSuccessResponse)
    (now : Nat) : OAuthToken :=
  { access_token := ok.access_token
    token_type := ok.token_type
    scope := ok.scope
    refresh_token := t.refresh_token
    obtained_at := now
    expires_in := ok.expires_in }

/-- Outcome of one error-dispatch step of the device-flow poll loop. -/
inductive PollOutcome where
  | keepPolling (interval : Nat)
  | deviceCodeExpired
  | accessDenied
  | authServerError (code : String) (desc : String)
  deriving DecidableEq, Repr

/-- The `match err.error.as_str()` dispatch of `device_login`
(`src/auth.rs` lines 192–209), with the poll interval (seconds) made
explicit: `authorization_pending` keeps polling unchanged, `slow_down`
keeps polling with the interval increased by 5 seconds, `expired_token`
and `access_denied` terminate, and any other code terminates with the
code and the description (defaulted to the empty string). -/
def handleTokenError (e : TokenErrorResponse) (interval : Nat) : PollOutcome :=
  if e.error = "authorization_pending" then .keepPolling interval
  else if e.error = "slow_down" then .keepPolling (interval + 5)
  else if e.error = "expired_token" then .deviceCodeExpired
  else if e.error = "access_denied" then .accessDenied
  else .authServerError e.error (e.error_description.getD "")

/-- One reply of the token endpoint to a poll, as `device_login` sees it
after reading the body: HTTP success with parsed JSON, HTTP failure with
a parsed JSON error body, or HTTP failure whose body is not JSON. -/
inductive TokenReply where
  | success (t : TokenSuccessResponse)
  | jsonError (e : TokenErrorResponse)
  | rawError
  deriving DecidableEq, Repr

/-- Result of the poll loop of `device_login`. -/
inductive LoopResult where
  | token (t : TokenSuccessResponse) (obtainedAt : Nat)
  | expired
  | denied
  | serverError (code : String) (desc : String)
  | rawFailure
  | outOfFuel
  deriving DecidableEq, Repr

/-- State carried across iterations of the poll loop: the wall clock
(seconds) and the current poll interval (seconds). -/
structure LoopState where
  now : Nat
  interval : Nat
  deriving DecidableEq, Repr

/-- The poll loop of `device_login` (`src/auth.rs` lines 140–210).  Each
iteration first compares the clock with the deadline (`SystemTime::now()
> expires_at`), then sleeps for the current poll interval — modelled as
advancing the clock by the interval — then consults the server's reply
for this iteration (`replies k`) and dispatches exactly as the source
does.  `fuel` bounds the number of iterations so the model is total;
the termination theorem shows enough fuel always exists. -/
def pollLoopRun (expiresAt : Nat) (replies : Nat → TokenReply) :
    Nat → Nat → LoopState → LoopResult
  | 0, _, _ => .outOfFuel
  | fuel + 1, k, st =>
    if st.now > expiresAt then .expired
    else
      let now' := st.now + st.interval
      match replies k with
      | .success t => .token t now'
      | .rawError => .rawFailure
      | .jsonError e =>
        match handleTokenError e st.interval with
        | .keepPolling i2 => pollLoopRun expiresAt replies fuel (k + 1) ⟨now', i2⟩
        | .deviceCodeExpired => .expired
        | .accessDenied => .denied
        | .authServerError c d => .serverError c d

/-- Outcome of reading the token file, as `load_token` distinguishes it:
contents read, `ErrorKind::NotFound`, or any other I/O error. -/
inductive ReadResult where
  | ok (bytes : List Nat)
  | notFound
  | otherError
  deriving DecidableEq, Repr

/-- The two hard-error cases of `load_token`. -/
inductive LoadError where
  | readError
  | parseError
  deriving DecidableEq, Repr

/-- Function `load_token` from `src/auth.rs` (lines 262–271), with the filesystem
read outcome and the `serde_json` parse of an `OAuthToken` passed in as
oracles: `NotFound` becomes `Ok(None)`, any other read error is a hard
error, and a parse failure of existing contents is a hard error. -/
def load_token (r : ReadResult) (parse : List Nat → Option OAuthToken) :
    Except LoadError (Option OAuthToken) :=
  match r with
  | .notFound => .ok none
  | .otherError => .error .readError
  | .ok bytes =>
    match parse bytes with
    | none => .error .parseError
    | some t => .ok (some t)

/-- Rust `std::str::from_utf8` on the `List Nat` byte model: decodes a
byte sequence into the list of Unicode code points, rejecting exactly
what Rust rejects (stray continuation bytes, overlong encodings,
surrogate code points, values above `0x10FFFF`). -/
def utf8Decode : List Nat → Option (List Nat)
  | [] => some []
  | b :: rest =>
    if b ≤ 0x7F then (utf8Decode rest).map (fun cs => b :: cs)
    else if b < 0xC2 then none
    else if b ≤ 0xDF then
      match rest with
      | [] => none
      | b1 :: r =>
        if 0x80 ≤ b1 ∧ b1 ≤ 0xBF then
          (utf8Decode r).map (fun cs => ((b - 0xC0) * 0x40 + (b1 - 0x80)) :: cs)
        else none
    else if b ≤ 0xEF then
      match rest with
      | b1 :: b2 :: r =>
        if (if b = 0xE0 then 0xA0 ≤ b1 ∧ b1 ≤ 0xBF
            else if b = 0xED then 0x80 ≤ b1 ∧ b1 ≤ 0x9F
            else 0x80 ≤ b1 ∧ b1 ≤ 0xBF) ∧ 0x80 ≤ b2 ∧ b2 ≤ 0xBF then
          (utf8Decode r).map
            (fun cs => ((b - 0xE0) * 0x1000 + (b1 - 0x80) * 0x40 + (b2 - 0x80)) :: cs)
        else none
      | _ => none
    else if b ≤ 0xF4 then
      match rest with
      | b1 :: b2 :: b3 :: r =>
        if (if b = 0xF0 then 0x90 ≤ b1 ∧ b1 ≤ 0xBF
            else if b = 0xF4 then 0x80 ≤ b1 ∧ b1 ≤ 0x8F
            else 0x80 ≤ b1 ∧ b1 ≤ 0xBF) ∧ 0x80 ≤ b2 ∧ b2 ≤ 0xBF ∧ 0x80 ≤ b3 ∧ b3 ≤ 0xBF then
          (utf8Decode r).map
            (fun cs => ((b - 0xF0) * 0x40000 + (b1 - 0x80) * 0x1000
              + (b2 - 0x80) * 0x40 + (b3 - 0x80)) :: cs)
        else none
      | _ => none
    else none

/-- Enum `SseEvent` from `src/provider/google.rs`.  The payload of `Data` is
the text as a list of code points. -/
inductive SseEvent where
  | Data (s : List Nat)
  | Other
  deriving DecidableEq, Repr

/-- One element of the `Vec<anyhow::Result<SseEvent>>` returned by
`SseParser::push`; `err` is the UTF-8 line-decoding failure. -/
inductive SseResult where
  | ok (e : SseEvent)
  | err
  deriving DecidableEq, Repr

/-- Structure `SseParser` from `src/provider/google.rs`: the byte buffer of
unterminated input and the in-progress data accumulator (a Rust
`String`, here its code points). -/
structure SseParser where
  buf : List Nat
  cur_data : List Nat
  deriving DecidableEq, Repr

/-- Constructor `SseParser::new()`. -/
def SseParser.new : SseParser := ⟨[], []⟩

/-- The code points of a Lean string, used to write byte/text literals
(for ASCII text the UTF-8 bytes coincide with the code points). -/
def strCps (s : String) : List Nat := s.data.map Char.toNat

/-- The code points of `"data:"`. -/
def dataTag : List Nat := strCps "data:"

/-- One non-newline byte in front of an already-split buffer: it joins
the first complete line if there is one, else the unterminated tail. -/
def consLine (b : Nat) : List (List Nat) × List Nat → List (List Nat) × List Nat
  | ([], t) => ([], b :: t)
  | (l :: ls, t) => ((b :: l) :: ls, t)

/-- Splits a byte buffer into its complete newline-terminated lines
(each without its `\n`) and the unterminated tail — the line extraction
loop of `SseParser::push`, which repeatedly drains up to and including
the first `\n`. -/
def splitLines : List Nat → List (List Nat) × List Nat
  | [] => ([], [])
  | b :: rest =>
    if b = 10 then ([] :: (splitLines rest).1, (splitLines rest).2)
    else consLine b (splitLines rest)

/-- Strip one trailing carriage return from a drained line (the `\n`
itself is already gone): `if line.ends_with(&[b'\r']) { line.pop(); }`. -/
def stripCr (line : List Nat) : List Nat :=
  match line.getLast? with
  | some 13 => line.dropLast
  | _ => line

/-- The body of the per-line processing of `SseParser::push`
(`src/provider/google.rs` lines 240–276): a blank line emits the
accumulated data (with its trailing newline popped) when the accumulator
is non-empty; a non-UTF-8 line yields an error without touching the
accumulator; a `data:` line (one optional space after the colon
stripped) appends its remainder plus `\n` to the accumulator; any other
line is an `Other` event.  Returns the new accumulator and the events
pushed for this line. -/
def handleLine (cur : List Nat) (rawLine : List Nat) : List Nat × List SseResult :=
  let line := stripCr rawLine
  if line = [] then
    if cur = [] then (cur, [])
    else
      let d := if cur.getLast? = some 10 then cur.dropLast else cur
      ([], [.ok (.Data d)])
  else
    match utf8Decode line with
    | none => (cur, [.err])
    | some s =>
      if s.take 5 = dataTag then
        let rest := s.drop 5
        let rest := if rest.head? = some 32 then rest.drop 1 else rest
        (cur ++ rest ++ [10], [])
      else (cur, [.ok .Other])

/-- Folds `handleLine` over the complete lines, threading the data
accumulator and concatenating the emitted events in order. -/
def processLines (cur : List Nat) : List (List Nat) → List Nat × List SseResult
  | [] => (cur, [])
  | l :: ls =>
    let p := handleLine cur l
    let q := processLines p.1 ls
    (q.1, p.2 ++ q.2)

/-- Method `SseParser::push`: append the chunk to the buffer, then process every
complete line in order, leaving the unterminated tail buffered. -/
def SseParser.push (p : SseParser) (chunk : List Nat) : SseParser × List SseResult :=
  let sp := splitLines (p.buf ++ chunk)
  let pr := processLines p.cur_data sp.1
  (⟨sp.2, pr.1⟩, pr.2)

/-- Repeated `push` calls on one parser, concatenating the events. -/
def pushMany (p : SseParser) : List (List Nat) → SseParser × List SseResult
  | [] => (p, [])
  | c :: cs =>
    let p1 := p.push c
    let p2 := pushMany p1.1 cs
    (p2.1, p1.2 ++ p2.2)

namespace Google

/-- Structure `Part` from `src/provider/google.rs`. -/
structure Part where
  text : Option String
  deriving DecidableEq, Repr

/-- Structure `Content` from `src/provider/google.rs`. -/
structure Content where
  role : Option String
  parts : List Part
  deriving DecidableEq, Repr

/-- Structure `Candidate` from `src/provider/google.rs`. -/
structure Candidate where
  content : Option Content
  deriving DecidableEq, Repr

/-- Structure `StreamGenerateContentResponse` from `src/provider/google.rs`. -/
structure StreamGenerateContentResponse where
  candidates : List Candidate
  deriving DecidableEq, Repr

/-- Function `extract_text` (`src/provider/google.rs` lines 196–207): take the
first candidate, its content, concatenate the `Some` texts of its parts
in order with `push_str`, and return `None` if the result is empty. -/
def extract_text (r : StreamGenerateContentResponse) : Option String :=
  match r.candidates.head? with
  | none => none
  | some cand =>
    match cand.content with
    | none => none
    | some content =>
      let out := content.parts.foldl
        (fun acc p => match p.text with | some t => acc ++ t | none => acc) ""
      if out = "" then none else some out

end Google

/-- The Unicode `White_Space` code points — the set Rust's
`char::is_whitespace` tests, used by `str::trim`. -/
def wsCps : List Nat :=
  [0x09, 0x0A, 0x0B, 0x0C, 0x0D, 0x20, 0x85, 0xA0, 0x1680,
   0x2000, 0x2001, 0x2002, 0x2003, 0x2004, 0x2005, 0x2006, 0x2007,
   0x2008, 0x2009, 0x200A, 0x2028, 0x2029, 0x202F, 0x205F, 0x3000]

/-- Rust `char::is_whitespace` on the code-point model. -/
def isWs (c : Nat) : Bool := c ∈ wsCps

/-- Rust `str::trim` on the code-point model: drop whitespace from both
ends. -/
def trimCps (l : List Nat) : List Nat :=
  ((l.dropWhile isWs).reverse.dropWhile isWs).reverse

/-- What the streaming loop of `GoogleProvider::stream_chat` does with
one parsed SSE event: keep going without sending, send one `ChatChunk`,
or send an error and stop the task. -/
inductive EventOutcome where
  | continueNoSend
  | sendChunk (text : String)
  | stopDecodeError
  | stopSseError
  deriving DecidableEq, Repr

/-- The per-event match of the streaming loop
(`src/provider/google.rs` lines 123–154), with the `serde_json` parse of
the data payload passed in as an oracle: a `Data` event whose text trims
to empty is skipped; otherwise a JSON parse failure sends an error and
stops; otherwise the extracted text (if any) is forwarded as a chunk;
`Other` events are ignored; an SSE line error sends the error and
stops. -/
def handleSseEvent (parse : List Nat → Option Google.StreamGenerateContentResponse)
    (ev : SseResult) : EventOutcome :=
  match ev with
  | .err => .stopSseError
  | .ok .Other => .continueNoSend
  | .ok (.Data d) =>
    if trimCps d = [] then .continueNoSend
    else
      match parse d with
      | none => .stopDecodeError
      | some r =>
        match Google.extract_text r with
        | none => .continueNoSend
        | some t => .sendChunk t

/-- C1 counterexample: on a refresh response that DOES include a
`refresh_token` (`"new-rt"`), the token built by `refresh_if_needed`
still carries the prior token's `"old-rt"`, so the claim's
"server-supplied refresh_token when the response includes one" is false
on the code (`src/auth.rs` line 256 always keeps `token.refresh_token`). -/
theorem C1_counterexample :
    (build_refreshed_token
        ⟨"old-at", "Bearer", none, some "old-rt", 0, some 10⟩
        ⟨"new-at", "Bearer", none, some 3600, some "new-rt"⟩ 100).refresh_token
      = some "old-rt" ∧
    (⟨"new-at", "Bearer", none, some 3600, some "new-rt"⟩
        : TokenSuccessResponse).refresh_token = some "new-rt" ∧
    (some "old-rt" : Option String) ≠ some "new-rt" := by
  refine ⟨rfl, rfl, by decide⟩

/-- C1 (amended): on a successful refresh exchange, `refresh_if_needed`
builds a new token (the stored token is superseded, not mutated) whose
`refresh_token` is always the prior token's `refresh_token`, whether or
not the server's refresh response includes one; the other fields come
from the response, with `obtained_at` restamped. -/
theorem C1_refresh_keeps_prior_refresh_token
    (t : OAuthToken) (ok : TokenSuccessResponse) (now : Nat) :
    (build_refreshed_token t ok now).refresh_token = t.refresh_token ∧
    (build_refreshed_token t ok now).access_token = ok.access_token ∧
    (build_refreshed_token t ok now).token_type = ok.token_type ∧
    (build_refreshed_token t ok now).scope = ok.scope ∧
    (build_refreshed_token t ok now).obtained_at = now ∧
    (build_refreshed_token t ok now).expires_in = ok.expires_in := by
  refine ⟨rfl, rfl, rfl, rfl, rfl, rfl⟩

/-- C2 counterexample: at the `u64` saturation boundary the claimed
"iff now + 30 < obtained_at + expires_in" fails: with
`obtained_at = u64::MAX`, `expires_in = 1000` and `now = u64::MAX`,
`is_valid_for` computes with saturating additions and returns `false`,
yet mathematically `now + 30 < obtained_at + expires_in`. -/
theorem C2_counterexample :
    (⟨"a", "Bearer", none, none, U64MAX, some 1000⟩
        : OAuthToken).isValidFor 30 U64MAX = false ∧
    U64MAX + 30 < U64MAX + 1000 := by
  constructor
  · decide
  · omega

/-- C2 (amended): for a token whose `expires_in` is present and whose
`obtained_at + expires_in` does not overflow `u64`, `is_valid_for` with
a 30-second skew holds iff `now + 30 < obtained_at + expires_in`
(strict comparison); a token whose `expires_in` is absent is valid for
every skew and every `now`. -/
theorem C2_is_valid_for_iff (t : OAuthToken) (e now : Nat)
    (he : t.expires_in = some e) (hno : t.obtained_at + e ≤ U64MAX) :
    (t.isValidFor 30 now = true ↔ now + 30 < t.obtained_at + e) ∧
    (∀ t2 : OAuthToken, t2.expires_in = none →
      ∀ skew now2, t2.isValidFor skew now2 = true) := by
  constructor
  · simp only [OAuthToken.isValidFor, OAuthToken.expiresAt, he, Option.map_some',
      satAdd, decide_eq_true_eq]
    omega
  · intro t2 h2 skew now2
    simp [OAuthToken.isValidFor, OAuthToken.expiresAt, h2]

/-- Witness for C2: a concrete token inside the no-overflow regime. -/
theorem C2_is_valid_for_iff_witness :
    ((⟨"a", "Bearer", none, none, 100, some 50⟩
        : OAuthToken).isValidFor 30 110 = true ↔ 110 + 30 < 100 + 50) ∧
    (∀ t2 : OAuthToken, t2.expires_in = none →
      ∀ skew now2, t2.isValidFor skew now2 = true) :=
  C2_is_valid_for_iff ⟨"a", "Bearer", none, none, 100, some 50⟩ 50 110 rfl (by decide)

/-- C5: the poll-loop dispatch on the JSON error code:
`authorization_pending` keeps polling with the interval unchanged,
`slow_down` keeps polling with the interval increased by exactly 5
seconds, `expired_token` terminates with the device-code-expired error,
`access_denied` terminates with the access-denied error, and every other
code terminates with the server error carrying the code and its
description. -/
theorem C5_poll_error_dispatch (d : Option String) (interval : Nat) :
    handleTokenError ⟨"authorization_pending", d⟩ interval = .keepPolling interval ∧
    handleTokenError ⟨"slow_down", d⟩ interval = .keepPolling (interval + 5) ∧
    handleTokenError ⟨"expired_token", d⟩ interval = .deviceCodeExpired ∧
    handleTokenError ⟨"access_denied", d⟩ interval = .accessDenied ∧
    (∀ c d2, c ≠ "authorization_pending" → c ≠ "slow_down" →
      c ≠ "expired_token" → c ≠ "access_denied" →
      handleTokenError ⟨c, d2⟩ interval = .authServerError c (d2.getD "")) := by
  refine ⟨by simp [handleTokenError], by simp [handleTokenError],
    by simp [handleTokenError], by simp [handleTokenError], ?_⟩
  intro c d2 h1 h2 h3 h4
  simp [handleTokenError, h1, h2, h3, h4]

/-- Witness for C5: the dispatch evaluated at concrete error codes. -/
theorem C5_poll_error_dispatch_witness :
    handleTokenError ⟨"authorization_pending", some "x"⟩ 7 = .keepPolling 7 ∧
    handleTokenError ⟨"invalid_grant", some "bad"⟩ 7 =
      .authServerError "invalid_grant" "bad" := by
  obtain ⟨h1, _, _, _, h5⟩ := C5_poll_error_dispatch (some "x") 7
  refine ⟨h1, ?_⟩
  have h6 := h5 "invalid_grant" (some "bad") (by decide) (by decide) (by decide) (by decide)
  simpa using h6

/-- C6: `refresh_if_needed` on a token valid under the 30-second skew
returns that very token and never reaches the network exchange; on an
invalid token without a `refresh_token` it fails with the
refresh-unavailable error and never reaches the network exchange. -/
theorem C6_refresh_no_network (t : OAuthToken) (now : Nat) :
    (t.isValidFor 30 now = true →
      refresh_step t now = .returnUnchanged t ∧
      ∀ rt, refresh_step t now ≠ .networkRefresh rt) ∧
    (t.isValidFor 30 now = false → t.refresh_token = none →
      refresh_step t now = .failRefreshUnavailable ∧
      ∀ rt, refresh_step t now ≠ .networkRefresh rt) := by
  constructor
  · intro h
    simp [refresh_step, h]
  · intro h h2
    simp [refresh_step, h, h2]

/-- Witness for C6: a never-expiring token is returned unchanged; an
expired token without a refresh token fails. -/
theorem C6_refresh_no_network_witness :
    refresh_step ⟨"a", "Bearer", none, none, 0, none⟩ 5 =
      .returnUnchanged ⟨"a", "Bearer", none, none, 0, none⟩ ∧
    refresh_step ⟨"a", "Bearer", none, none, 0, some 0⟩ 100 =
      .failRefreshUnavailable :=
  ⟨((C6_refresh_no_network ⟨"a", "Bearer", none, none, 0, none⟩ 5).1 (by decide)).1,
   ((C6_refresh_no_network ⟨"a", "Bearer", none, none, 0, some 0⟩ 100).2
     (by decide) rfl).1⟩

/-- C9: `load_token` yields the absent value exactly when the read
reports a missing file; any other read failure is a hard read error, and
a parse failure of existing contents is a hard parse error (a parse
success is returned as present). -/
theorem C9_load_token_absent_iff_missing
    (r : ReadResult) (parse : List Nat → Option OAuthToken) :
    (load_token r parse = .ok none ↔ r = .notFound) ∧
    (load_token .otherError parse = .error .readError) ∧
    (∀ bytes, parse bytes = none →
      load_token (.ok bytes) parse = .error .parseError) ∧
    (∀ bytes t, parse bytes = some t →
      load_token (.ok bytes) parse = .ok (some t)) := by
  refine ⟨?_, rfl, ?_, ?_⟩
  · cases r with
    | notFound => simp [load_token]
    | otherError => simp [load_token]
    | ok bytes =>
      cases h : parse bytes <;> simp [load_token, h]
  · intro bytes h
    simp [load_token, h]
  · intro bytes t h
    simp [load_token, h]

/-- Witness for C9: concrete read outcomes with a parser that rejects
everything. -/
theorem C9_load_token_witness :
    (load_token .notFound (fun _ => none) = .ok none ↔
      (ReadResult.notFound = ReadResult.notFound)) ∧
    load_token (.ok [1, 2]) (fun _ => none) = .error .parseError := by
  obtain ⟨h1, _, h3, _⟩ := C9_load_token_absent_iff_missing .notFound (fun _ => none)
  exact ⟨h1, h3 [1, 2] rfl⟩

/-- Modelled from the spec's words, for comparison with `extract_text`:
the concatenation, in order, of all present text parts. -/
def specConcatTexts (ps : List Google.Part) : String :=
  (ps.filterMap Google.Part.text).foldr (fun a b => a ++ b) ""

/-- The source's `push_str` accumulation over the parts equals the
spec-side concatenation appended to the initial accumulator. -/
theorem foldl_parts_eq (ps : List Google.Part) (acc : String) :
    ps.foldl (fun acc p => match p.text with | some t => acc ++ t | none => acc) acc
      = acc ++ specConcatTexts ps := by
  induction ps generalizing acc with
  | nil => simp [specConcatTexts]
  | cons p ps ih =>
    cases hp : p.text with
    | none => simp [hp, ih, specConcatTexts, List.filterMap_cons, hp]
    | some t =>
      simp [hp, ih, specConcatTexts, List.filterMap_cons, String.append_assoc]

/-- C8: `extract_text` returns the in-order concatenation of all present
text parts of the first candidate's content (suppressed when empty),
returns nothing when there is no candidate or no content, and candidates
after the first never contribute. -/
theorem C8_extract_text_first_candidate
    (c : Google.Candidate) (rest : List Google.Candidate)
    (content : Google.Content) :
    (c.content = some content →
      Google.extract_text ⟨c :: rest⟩ =
        (if specConcatTexts content.parts = "" then none
         else some (specConcatTexts content.parts))) ∧
    Google.extract_text ⟨[]⟩ = none ∧
    (c.content = none → Google.extract_text ⟨c :: rest⟩ = none) ∧
    (∀ r2, Google.extract_text ⟨c :: rest⟩ = Google.extract_text ⟨c :: r2⟩) ∧
    Google.extract_text ⟨[⟨some ⟨none, [⟨some "x"⟩, ⟨some "y"⟩]⟩⟩]⟩ = some "xy" ∧
    (∀ role, c.content = some ⟨role, []⟩ →
      Google.extract_text ⟨c :: rest⟩ = none) := by
  refine ⟨?_, rfl, ?_, ?_, by decide, ?_⟩
  · intro h
    simp only [Google.extract_text, List.head?_cons, h, foldl_parts_eq,
      String.empty_append]
  · intro h
    simp [Google.extract_text, h]
  · intro r2
    simp only [Google.extract_text, List.head?_cons]
  · intro role h
    simp [Google.extract_text, h]

/-- Witness for C8: a candidate whose parts hold texts `"x"`, a missing
text, and `"y"` yields `"xy"`; a candidate with zero parts yields
nothing. -/
theorem C8_extract_text_witness :
    Google.extract_text ⟨[⟨some ⟨none, [⟨some "x"⟩, ⟨none⟩, ⟨some "y"⟩]⟩⟩]⟩
      = some "xy" ∧
    Google.extract_text ⟨[⟨some ⟨none, []⟩⟩]⟩ = none := by
  obtain ⟨h1, -, -, -, -, -⟩ :=
    C8_extract_text_first_candidate ⟨some ⟨none, [⟨some "x"⟩, ⟨none⟩, ⟨some "y"⟩]⟩⟩
      [] ⟨none, [⟨some "x"⟩, ⟨none⟩, ⟨some "y"⟩]⟩
  obtain ⟨-, -, -, -, -, h6⟩ :=
    C8_extract_text_first_candidate ⟨some ⟨none, []⟩⟩ [] ⟨none, []⟩
  constructor
  · rw [h1 rfl]
    decide
  · exact h6 none rfl

/-- A list of only-whitespace code points trims to the empty list. -/
theorem trimCps_nil_of_all_ws (d : List Nat) (h : ∀ c ∈ d, isWs c = true) :
    trimCps d = [] := by
  have h1 : d.dropWhile isWs = [] := List.dropWhile_eq_nil_iff.mpr h
  simp [trimCps, h1]

/-- C10: in the streaming loop, a parsed `Data` event whose text is
empty or consists only of whitespace is silently skipped — not forwarded
as a chunk and not treated as a malformed-JSON decode error, whatever
the JSON parser would have said — and the loop keeps consuming. -/
theorem C10_whitespace_data_skipped
    (parse : List Nat → Option Google.StreamGenerateContentResponse)
    (d : List Nat) (h : ∀ c ∈ d, isWs c = true) :
    handleSseEvent parse (.ok (.Data d)) = .continueNoSend := by
  simp [handleSseEvent, trimCps_nil_of_all_ws d h]

/-- Witness for C10: a whitespace-only payload with a parser that would
reject it is skipped, not an error. -/
theorem C10_whitespace_data_skipped_witness :
    handleSseEvent (fun _ => none) (.ok (.Data (strCps "  "))) = .continueNoSend :=
  C10_whitespace_data_skipped (fun _ => none) (strCps "  ") (by decide)



/-- Line splitting distributes over concatenation: the complete lines of
`x ++ y` are those of `x` followed by those of the unterminated tail of
`x` glued to `y`. -/
theorem splitLines_append (y : List Nat) :
    ∀ x ls t A B, splitLines x = (ls, t) → splitLines (t ++ y) = (A, B) →
      splitLines (x ++ y) = (ls ++ A, B) := by
  intro x
  induction x with
  | nil =>
    intro ls t A B h1 h2
    simp only [splitLines, Prod.mk.injEq] at h1
    obtain ⟨h1a, h1b⟩ := h1
    subst h1a; subst h1b
    simpa using h2
  | cons b x ih =>
    intro ls t A B h1 h2
    rcases hsx : splitLines x with ⟨ls2, t2⟩
    by_cases hb : b = 10
    · subst hb
      rw [List.cons_append]
      have hsl : splitLines (10 :: x) = ([] :: ls2, t2) := by
        simp [splitLines, hsx]
      rw [hsl] at h1
      simp only [Prod.mk.injEq] at h1
      obtain ⟨h1a, h1b⟩ := h1
      subst h1a; subst h1b
      have h3 := ih ls2 t2 A B hsx h2
      simp [splitLines, h3]
    · rw [List.cons_append]
      have hsl : splitLines (b :: x) = consLine b (ls2, t2) := by
        simp [splitLines, hb, hsx]
      rw [hsl] at h1
      have hstep : splitLines (b :: (x ++ y)) = consLine b (splitLines (x ++ y)) := by
        simp [splitLines, hb]
      cases ls2 with
      | nil =>
        simp only [consLine, Prod.mk.injEq] at h1
        obtain ⟨h1a, h1b⟩ := h1
        subst h1a; subst h1b
        rw [List.cons_append] at h2
        rcases hsty : splitLines (t2 ++ y) with ⟨A2, B2⟩
        have h3 := ih [] t2 A2 B2 hsx hsty
        have h4 : splitLines (b :: (t2 ++ y)) = consLine b (A2, B2) := by
          simp [splitLines, hb, hsty]
        rw [h4] at h2
        simp only [List.nil_append] at h3
        rw [hstep, h3]
        simpa using h2
      | cons l ls3 =>
        simp only [consLine, Prod.mk.injEq] at h1
        obtain ⟨h1a, h1b⟩ := h1
        subst h1a; subst h1b
        have h3 := ih (l :: ls3) t2 A B hsx h2
        rw [hstep, h3]
        simp [consLine]

/-- Folding the line handler over concatenated line lists composes:
state threads through, events concatenate. -/
theorem processLines_append (l2 : List (List Nat)) :
    ∀ l1 cur, processLines cur (l1 ++ l2) =
      ((processLines (processLines cur l1).1 l2).1,
       (processLines cur l1).2 ++ (processLines (processLines cur l1).1 l2).2) := by
  intro l1
  induction l1 with
  | nil => intro cur; simp [processLines]
  | cons l ls ih =>
    intro cur
    simp only [List.cons_append, processLines]
    rw [List.append_eq, ih]
    simp [List.append_assoc]

/-- Pushing `a ++ b` equals pushing `a` then pushing `b`: the parser
state threads through and the event lists concatenate. -/
theorem push_append (p : SseParser) (a b : List Nat) :
    p.push (a ++ b) =
      (((p.push a).1.push b).1, (p.push a).2 ++ ((p.push a).1.push b).2) := by
  rcases h1 : splitLines (p.buf ++ a) with ⟨ls1, t1⟩
  rcases h2 : splitLines (t1 ++ b) with ⟨ls2, t2⟩
  have h3 : splitLines (p.buf ++ (a ++ b)) = (ls1 ++ ls2, t2) := by
    rw [← List.append_assoc]
    exact splitLines_append b (p.buf ++ a) ls1 t1 ls2 t2 h1 h2
  simp only [SseParser.push, h1, h3, h2, processLines_append]

/-- A buffer without a newline splits into no lines and itself. -/
theorem splitLines_of_no_nl : ∀ x : List Nat, 10 ∉ x → splitLines x = ([], x) := by
  intro x
  induction x with
  | nil => intro _; simp [splitLines]
  | cons b x ih =>
    intro h
    have hb : b ≠ 10 := fun hb => h (hb ▸ List.mem_cons_self b x)
    have hx : 10 ∉ x := fun hx => h (List.mem_cons_of_mem b hx)
    simp [splitLines, hb, ih hx, consLine]

/-- The unterminated tail left by line splitting never contains a
newline. -/
theorem splitLines_tail_no_nl : ∀ x : List Nat, 10 ∉ (splitLines x).2 := by
  intro x
  induction x with
  | nil => simp [splitLines]
  | cons b x ih =>
    by_cases hb : b = 10
    · subst hb
      simpa [splitLines] using ih
    · rcases hx : splitLines x with ⟨ls, t⟩
      rw [hx] at ih
      cases ls with
      | nil =>
        simp only [splitLines, if_neg hb, hx, consLine, List.mem_cons]
        rintro (h | h)
        · exact hb h.symm
        · exact ih h
      | cons l ls2 => simpa [splitLines, hb, hx, consLine] using ih

/-- The parser's buffer never contains a newline after a push. -/
theorem push_buf_no_nl (p : SseParser) (c : List Nat) : 10 ∉ ((p.push c).1).buf := by
  simp only [SseParser.push]
  exact splitLines_tail_no_nl (p.buf ++ c)

/-- Pushing nothing into a parser whose buffer holds no newline changes
nothing and emits nothing. -/
theorem push_nil_of_no_nl (p : SseParser) (h : 10 ∉ p.buf) : p.push [] = (p, []) := by
  simp [SseParser.push, splitLines_of_no_nl p.buf h, processLines]

/-- Feeding any fragment list to a parser whose buffer holds no newline
equals feeding the concatenation in one push. -/
theorem pushMany_eq_push_join :
    ∀ (frags : List (List Nat)) (p : SseParser), 10 ∉ p.buf →
      pushMany p frags = p.push frags.flatten := by
  intro frags
  induction frags with
  | nil =>
    intro p h
    simp [pushMany, push_nil_of_no_nl p h]
  | cons c cs ih =>
    intro p h
    have hclean := push_buf_no_nl p c
    simp only [pushMany, List.flatten_cons, ih (p.push c).1 hclean]
    rw [push_append p c cs.flatten]

/-- C3: the SSE parser is fragmentation-invariant — for every byte
sequence and every split of it into successive fragments, feeding the
fragments through successive `push` calls on one fresh parser yields
exactly the same final parser state and the same concatenated ordered
event sequence as feeding the whole sequence in a single `push`; in
particular feeding `"data: hel"` then `"lo\n\n"` across two calls
yields exactly one `Data("hello")` event. -/
theorem C3_sse_fragmentation_invariant :
    (∀ frags : List (List Nat),
      pushMany SseParser.new frags = SseParser.new.push frags.flatten) ∧
    pushMany SseParser.new [strCps "data: hel", strCps "lo\n\n"] =
      (SseParser.new, [.ok (.Data (strCps "hello"))]) := by
  constructor
  · intro frags
    exact pushMany_eq_push_join frags SseParser.new (by simp [SseParser.new])
  · decide

/-- C4: a non-empty `data:` line appends its remainder (one optional
leading space after the colon stripped) plus a newline separator to the
data accumulator and emits nothing; a blank line with a non-empty
accumulator emits exactly one `Data` event equal to the accumulated text
with its single trailing newline trimmed and resets the accumulator; and
feeding `"data: a\ndata: b\n\n"` yields exactly one `Data("a\nb")`
event. -/
theorem C4_data_line_accumulation (cur rawLine s : List Nat)
    (hne : stripCr rawLine ≠ [])
    (hdec : utf8Decode (stripCr rawLine) = some s)
    (htag : s.take 5 = dataTag) :
    (handleLine cur rawLine =
      (cur ++ (if (s.drop 5).head? = some 32 then (s.drop 5).drop 1 else s.drop 5)
        ++ [10], [])) ∧
    (∀ acc : List Nat, acc ≠ [] →
      handleLine acc [] =
        ([], [.ok (.Data (if acc.getLast? = some 10 then acc.dropLast else acc))])) ∧
    SseParser.new.push (strCps "data: a\ndata: b\n\n") =
      (SseParser.new, [.ok (.Data (strCps "a\nb"))]) := by
  refine ⟨?_, ?_, by decide⟩
  · simp [handleLine, hne, hdec, htag]
  · intro acc hacc
    simp [handleLine, stripCr, hacc]

/-- Witness for C4: one `data:` line appends to a concrete accumulator;
one blank line flushes a concrete accumulator. -/
theorem C4_data_line_accumulation_witness :
    handleLine (strCps "x\n") (strCps "data: hi") =
      (strCps "x\n" ++ strCps "hi" ++ [10], []) ∧
    handleLine (strCps "a\n") [] = ([], [.ok (.Data (strCps "a"))]) := by
  obtain ⟨h1, h2, -⟩ := C4_data_line_accumulation (strCps "x\n") (strCps "data: hi")
    (strCps "data: hi") (by decide) (by decide) (by decide)
  constructor
  · rw [h1]; decide
  · rw [h2 (strCps "a\n") (by decide)]; decide

/-- Under a server that forever answers `authorization_pending` or
`slow_down`, the poll loop reaches the deadline and exits expired, given
a positive interval and enough fuel to cover the remaining time. -/
theorem pollLoopRun_expired_of_pending
    (expiresAt : Nat) (replies : Nat → TokenReply)
    (hrep : ∀ j, ∃ e, replies j = .jsonError e ∧
      (e.error = "authorization_pending" ∨ e.error = "slow_down")) :
    ∀ fuel k st, 1 ≤ st.interval → 1 ≤ fuel →
      expiresAt + 2 - st.now ≤ fuel →
      pollLoopRun expiresAt replies fuel k st = .expired := by
  intro fuel
  induction fuel with
  | zero =>
    intro k st h1 h2 h3
    omega
  | succ n ih =>
    intro k st h1 h2 h3
    by_cases hd : st.now > expiresAt
    · simp [pollLoopRun, hd]
    · obtain ⟨e, he, hcode⟩ := hrep k
      have hnow : st.now ≤ expiresAt := Nat.le_of_not_lt hd
      rcases hcode with hc | hc
      · have hh : handleTokenError e st.interval = .keepPolling st.interval := by
          simp [handleTokenError, hc]
        simp only [pollLoopRun, if_neg hd, he, hh]
        exact ih (k + 1) ⟨st.now + st.interval, st.interval⟩ h1 (by omega)
          (show expiresAt + 2 - (st.now + st.interval) ≤ n by omega)
      · have hh : handleTokenError e st.interval = .keepPolling (st.interval + 5) := by
          simp [handleTokenError, hc]
        simp only [pollLoopRun, if_neg hd, he, hh]
        exact ih (k + 1) ⟨st.now + st.interval, st.interval + 5⟩
          (show 1 ≤ st.interval + 5 by omega) (by omega)
          (show expiresAt + 2 - (st.now + st.interval) ≤ n by omega)

/-- C7: each iteration of the poll loop checks the deadline against the
clock before the sleep-and-poll attempt, whatever the server returned
before — once the deadline has passed the loop exits expired regardless
of the replies — and when the server forever answers
`authorization_pending` or `slow_down` the loop still terminates with
the device-code-expired result, given fuel covering the remaining
time. -/
theorem C7_deadline_checked_and_terminates
    (expiresAt : Nat) (replies : Nat → TokenReply) (fuel k : Nat) (st : LoopState) :
    (st.now > expiresAt → pollLoopRun expiresAt replies (fuel + 1) k st = .expired) ∧
    (1 ≤ st.interval →
      (∀ j, ∃ e, replies j = .jsonError e ∧
        (e.error = "authorization_pending" ∨ e.error = "slow_down")) →
      1 ≤ fuel → expiresAt + 2 - st.now ≤ fuel →
      pollLoopRun expiresAt replies fuel k st = .expired) := by
  constructor
  · intro h
    simp [pollLoopRun, h]
  · intro h1 h2 h3 h4
    exact pollLoopRun_expired_of_pending expiresAt replies h2 fuel k st h1 h3 h4

/-- Witness for C7: a clock already past the deadline exits at once even
under a `slow_down`-forever server; a clock before the deadline reaches
it and exits expired. -/
theorem C7_deadline_checked_witness :
    pollLoopRun 3 (fun _ => TokenReply.jsonError ⟨"slow_down", none⟩) 5 0 ⟨10, 2⟩
      = .expired ∧
    pollLoopRun 3 (fun _ => TokenReply.jsonError ⟨"slow_down", none⟩) 5 0 ⟨0, 1⟩
      = .expired := by
  constructor
  · exact (C7_deadline_checked_and_terminates 3 _ 4 0 ⟨10, 2⟩).1 (by decide)
  · exact (C7_deadline_checked_and_terminates 3 _ 5 0 ⟨0, 1⟩).2 (by decide)
      (fun j => ⟨⟨"slow_down", none⟩, rfl, Or.inr rfl⟩) (by decide) (by decide)
